import Mathlib

/-!
Verification of the netsi-address widget (netsi1964/netsi-address).

The repository contains three parallel implementations of the same custom
element: two TypeScript variants inside src/netsi-address.ts (called TsA,
the first one, lines 1-468, and TsB, the second one, lines 469-879) and a
JavaScript variant src/netsi-address.js (called Js).  TsB and Js share the
same lookup logic; their select and populate steps differ slightly, and
TsA differs more.  Each definition below names the variant and the source
lines it embeds.

JavaScript values are modelled by the inductive type JsVal; operations
that can throw are modelled in Except String.  DOM effects (field writes,
event dispatch, fetches, aborts, logging) are modelled as an explicit
trace of actions.
-/

/-- A JavaScript runtime value, as far as the widget manipulates them:
undefined, null, booleans, strings, integers and plain objects
(association lists of fields).  Arrays and floats never flow through the
code paths verified here. -/
inductive JsVal where
  | undefv
  | nullv
  | bool (b : Bool)
  | str (s : String)
  | num (n : Int)
  | obj (fields : List (String × JsVal))

/-- JavaScript truthiness: undefined, null, false, the empty string and 0
are falsy, everything else (including every object) is truthy. -/
def truthy : JsVal → Bool
  | .undefv => false
  | .nullv => false
  | .bool b => b
  | .str s => !s.isEmpty
  | .num n => n != 0
  | .obj _ => true

/-- Look a key up in an object field list (first binding wins, as for
JavaScript object literals without duplicate keys). -/
def findField : List (String × JsVal) → String → Option JsVal
  | [], _ => none
  | (k, v) :: rest, key => if k = key then some v else findField rest key

/-- JavaScript member access a[k]: throws a TypeError on undefined and
null, yields the field (or undefined) on objects, and undefined on other
primitives (the widget never hits a string/number method here). -/
def jsGetProp : JsVal → String → Except String JsVal
  | .undefv, _ => .error "TypeError: cannot read properties of undefined"
  | .nullv, _ => .error "TypeError: cannot read properties of null"
  | .obj fields, key => .ok ((findField fields key).getD .undefv)
  | _, _ => .ok .undefv

/-- Non-throwing member access, used where the source guards the access
(after a truthiness test or behind optional chaining). -/
def getPropD : JsVal → String → JsVal
  | .obj fields, key => (findField fields key).getD .undefv
  | _, _ => .undefv

/-- Optional chaining a?.k: yields undefined when a is null or undefined,
plain member access otherwise. -/
def optGetProp : JsVal → String → JsVal
  | .undefv, _ => .undefv
  | .nullv, _ => .undefv
  | v, key => getPropD v key

/-- Helper for splitDots: accumulates the current segment (reversed). -/
def splitDotsAux : List Char → List Char → List String
  | [], cur => [String.mk cur.reverse]
  | c :: rest, cur =>
    if c = '.' then String.mk cur.reverse :: splitDotsAux rest []
    else splitDotsAux rest (c :: cur)

/-- JavaScript path.split with a one-character separator, as used by
path.split in _getValue: every occurrence of the dot separates segments,
and the empty string splits to a single empty segment. -/
def splitDots (s : String) : List String :=
  splitDotsAux s.data []

/-- One step of the reduce in _getValue of both TypeScript variants
(netsi-address.ts lines 456-461 and 871-874):
acc and acc[part], with member access able to throw. -/
def getValueStepTs (acc : Except String JsVal) (part : String) : Except String JsVal :=
  acc.bind fun a => if truthy a then jsGetProp a part else .ok a

/-- The function _getValue of both TypeScript variants (netsi-address.ts lines 456-461
and 871-874): path.split dot, then reduce with acc and acc[part], seeded
with the object. -/
def getValueTs (o : JsVal) (path : String) : Except String JsVal :=
  (splitDots path).foldl getValueStepTs (.ok o)

/-- The != null test of the Js variant: null and undefined are replaced
by the empty string, every other value is kept. -/
def jsNullToEmpty : JsVal → JsVal
  | .undefv => .str ""
  | .nullv => .str ""
  | w => w

/-- One step of the reduce inside _populate of the Js variant
(netsi-address.js lines 281-284):
(obj and obj[k] != null) ? obj[k] : the empty string. -/
def getValueStepJs (acc : Except String JsVal) (part : String) : Except String JsVal :=
  acc.bind fun a =>
    if truthy a then (jsGetProp a part).map jsNullToEmpty
    else .ok (.str "")

/-- The dot-path resolution inlined in _populate of the Js variant
(netsi-address.js lines 281-284): missing or null segments resolve to the
empty string. -/
def getValueJs (o : JsVal) (path : String) : Except String JsVal :=
  (splitDots path).foldl getValueStepJs (.ok o)

theorem getValueStepTs_ok (a : JsVal) (part : String) :
    ∃ v, getValueStepTs (.ok a) part = .ok v := by
  cases a with
  | undefv => exact ⟨.undefv, rfl⟩
  | nullv => exact ⟨.nullv, rfl⟩
  | bool b =>
      cases b with
      | false => exact ⟨.bool false, rfl⟩
      | true => exact ⟨.undefv, rfl⟩
  | str s =>
      by_cases h : s.isEmpty
      · exact ⟨.str s, by simp [getValueStepTs, truthy, Except.bind, h]⟩
      · exact ⟨.undefv, by simp [getValueStepTs, truthy, Except.bind, h, jsGetProp]⟩
  | num n =>
      by_cases h : n = 0
      · exact ⟨.num n, by simp [getValueStepTs, truthy, Except.bind, h]⟩
      · exact ⟨.undefv, by simp [getValueStepTs, truthy, Except.bind, h, jsGetProp]⟩
  | obj fields =>
      exact ⟨(findField fields part).getD .undefv,
        by simp [getValueStepTs, truthy, Except.bind, jsGetProp]⟩

theorem getValueStepJs_ok (a : JsVal) (part : String) :
    ∃ v, getValueStepJs (.ok a) part = .ok v := by
  cases a with
  | undefv => exact ⟨.str "", rfl⟩
  | nullv => exact ⟨.str "", rfl⟩
  | bool b =>
      cases b with
      | false => exact ⟨.str "", rfl⟩
      | true => exact ⟨.str "", rfl⟩
  | str s =>
      by_cases h : s.isEmpty
      · exact ⟨.str "", by simp [getValueStepJs, truthy, Except.bind, h]⟩
      · exact ⟨.str "", by
          simp [getValueStepJs, truthy, Except.bind, h, jsGetProp, Except.map,
            jsNullToEmpty]⟩
  | num n =>
      by_cases h : n = 0
      · exact ⟨.str "", by simp [getValueStepJs, truthy, Except.bind, h]⟩
      · exact ⟨.str "", by
          simp [getValueStepJs, truthy, Except.bind, h, jsGetProp, Except.map,
            jsNullToEmpty]⟩
  | obj fields =>
      exact ⟨jsNullToEmpty ((findField fields part).getD .undefv), by
        simp [getValueStepJs, truthy, Except.bind, jsGetProp, Except.map]⟩

theorem foldl_getValueStepTs_ok (parts : List String) (a : JsVal) :
    ∃ v, parts.foldl getValueStepTs (.ok a) = .ok v := by
  induction parts generalizing a with
  | nil => exact ⟨a, rfl⟩
  | cons p rest ih =>
      obtain ⟨w, hw⟩ := getValueStepTs_ok a p
      simpa [List.foldl, hw] using ih w

theorem foldl_getValueStepJs_ok (parts : List String) (a : JsVal) :
    ∃ v, parts.foldl getValueStepJs (.ok a) = .ok v := by
  induction parts generalizing a with
  | nil => exact ⟨a, rfl⟩
  | cons p rest ih =>
      obtain ⟨w, hw⟩ := getValueStepJs_ok a p
      simpa [List.foldl, hw] using ih w

/-- A sample full record with adgangsadresse.postnummer.nr present. -/
def sampleFullRecord : JsVal :=
  .obj [("adgangsadresse",
    .obj [("postnummer", .obj [("nr", .str "8541")])])]

/-- A sample record with an empty adgangsadresse object. -/
def sampleEmptyRecord : JsVal :=
  .obj [("adgangsadresse", .obj [])]

/-- C1: dot-path resolution is total.  For every object and every dot
path, _getValue of both TypeScript variants never throws (always returns
Except.ok), and so does the inlined resolution of the Js variant; the
path adgangsadresse.postnummer.nr resolves to the string 8541 against a
record that carries it, and to undefined (TypeScript) respectively the
empty string (Js) against a record whose adgangsadresse is empty. -/
theorem getValue_total_and_examples :
    (∀ (o : JsVal) (path : String), ∃ v, getValueTs o path = .ok v) ∧
    (∀ (o : JsVal) (path : String), ∃ v, getValueJs o path = .ok v) ∧
    getValueTs sampleFullRecord "adgangsadresse.postnummer.nr" = .ok (.str "8541") ∧
    getValueTs sampleEmptyRecord "adgangsadresse.postnummer.nr" = .ok .undefv ∧
    getValueJs sampleEmptyRecord "adgangsadresse.postnummer.nr" = .ok (.str "") := by
  refine ⟨?_, ?_, ?_, ?_, ?_⟩
  · intro o path
    exact foldl_getValueStepTs_ok (splitDots path) o
  · intro o path
    exact foldl_getValueStepJs_ok (splitDots path) o
  · rfl
  · rfl
  · rfl

/-- String coercion applied by URLSearchParams and by the explicit
String(value) call of the TypeScript variants. -/
def jsToString : JsVal → String
  | .undefv => "undefined"
  | .nullv => "null"
  | .bool true => "true"
  | .bool false => "false"
  | .str s => s
  | .num n => toString n
  | .obj _ => "[object Object]"

/-- Whitespace recognised by String.prototype.trim (the widget only ever
meets the common four). -/
def isJsSpace (c : Char) : Bool :=
  c = ' ' || c = '\t' || c = '\n' || c = '\r'

/-- String.prototype.trim: strip leading and trailing whitespace. -/
def jsTrim (s : String) : String :=
  String.mk (((s.data.dropWhile isJsSpace).reverse.dropWhile isJsSpace).reverse)

/-- One autocomplete suggestion: display text, nested address record and
the fuzzy-origin flag (absent models as false). -/
structure Suggestion where
  tekst : String
  adresse : JsVal
  isFuzzy : Bool

/-- A ui config entry: either a plain CSS selector string or an object
with a selector and a mapper function; mappers may throw, modelled in
Except. -/
inductive UiMapping where
  | sel (selector : String)
  | selMap (selector : String) (mapper : JsVal → JsVal → Except String JsVal)

/-- The selector of a ui mapping. -/
def selectorOf : UiMapping → String
  | .sel s => s
  | .selMap s _ => s

/-- The mapper of a ui mapping, when one is configured. -/
def mapperOf : UiMapping → Option (JsVal → JsVal → Except String JsVal)
  | .sel _ => none
  | .selMap _ f => some f

/-- The merged _config of the component: the ui mapping, the
useFuzzyFallback value, and all remaining keys (pass-through request
parameters). -/
structure MergedConfig where
  ui : List (String × UiMapping)
  useFuzzyFallback : JsVal
  extra : List (String × JsVal)

/-- Observable effects of the widget, recorded as a trace: aborting a
controller, issuing the autocomplete fetch, issuing the detail fetch of a
href, console.error logging, rendering the suggestion list, hiding it,
writing a form-control value via querySelector, writing text content,
writing the primary input value, and dispatching a CustomEvent. -/
inductive Act where
  | abort (id : Nat)
  | fetch (id : Nat) (params : List (String × String))
  | detailFetch (url : String)
  | logError (msg : String)
  | render (suggestions : List Suggestion)
  | hideList
  | setField (selector : String) (value : JsVal)
  | setText (selector : String) (value : JsVal)
  | setInput (value : JsVal)
  | dispatch (evName : String) (bubbles : Bool) (composed : Bool) (payload : JsVal)

/-- Whether an action is a network fetch of the autocomplete endpoint. -/
def isFetch : Act → Bool
  | .fetch _ _ => true
  | _ => false

/-- Whether an action is a console.error log. -/
def isLog : Act → Bool
  | .logError _ => true
  | _ => false

/-- Whether an action renders the suggestion list. -/
def isRender : Act → Bool
  | .render _ => true
  | _ => false

/-- Whether an action writes into a form field, a text node or the
primary input. -/
def isWrite : Act → Bool
  | .setField _ _ => true
  | .setText _ _ => true
  | .setInput _ => true
  | _ => false

/-- Whether an action dispatches an event. -/
def isDispatch : Act → Bool
  | .dispatch _ _ _ _ => true
  | _ => false

/-- Number of autocomplete fetches in a trace. -/
def countFetches (tr : List Act) : Nat :=
  (tr.filter isFetch).length

/-- Parameters of the first fetch in a trace, if any. -/
def firstFetchParams : List Act → Option (List (String × String))
  | [] => none
  | .fetch _ ps :: _ => some ps
  | _ :: rest => firstFetchParams rest

/-- First value bound to a key in a parameter list (URLSearchParams.get). -/
def paramGet : List (String × String) → String → Option String
  | [], _ => none
  | (k, v) :: rest, key => if k = key then some v else paramGet rest key

/-- URLSearchParams.set: replace the value of an existing key in place,
append the pair otherwise. -/
def setParam (ps : List (String × String)) (k v : String) : List (String × String) :=
  if ps.any (fun p => p.1 = k) then
    ps.map (fun p => if p.1 = k then (k, v) else p)
  else ps ++ [(k, v)]

/-- The function _buildQueryParameters shared by the TsB variant (netsi-address.ts
lines 751-770) and the Js variant (netsi-address.js lines 200-210): set q
to the trimmed input when non-empty, set every config key other than ui
and useFuzzyFallback (string-coerced), and set fuzzy=true on the fallback
call. -/
def buildQueryParametersJb (inputValue : String) (cfg : MergedConfig) (isFuzzy : Bool) :
    List (String × String) :=
  let query := jsTrim inputValue
  let params : List (String × String) := if query.isEmpty then [] else setParam [] "q" query
  let params := cfg.extra.foldl (fun ps kv => setParam ps kv.1 (jsToString kv.2)) params
  if isFuzzy then setParam params "fuzzy" "true" else params

/-- The function _buildQueryParameters of the TsA variant (netsi-address.ts lines
353-368): a literal with the raw (untrimmed) input as q, type=adresse,
per_side=10 and, on the fallback call, an empty fuzzy marker; every other
config key is then appended string-coerced. -/
def buildQueryParametersTsa (inputValue : String) (cfg : MergedConfig) (isFuzzy : Bool) :
    List (String × String) :=
  ([("q", inputValue), ("type", "adresse"), ("per_side", "10")]
    ++ (if isFuzzy then [("fuzzy", "")] else []))
  ++ cfg.extra.map (fun kv => (kv.1, jsToString kv.2))

/-- Outcome of one fetch call, supplied to the embedding as an oracle:
the parsed JSON array, an AbortError rejection, or any other failure
(non-2xx status or transport error) with its message. -/
inductive FetchResult where
  | ok (data : List Suggestion)
  | abortedErr
  | failure (msg : String)

/-- What a fetch call throws, when it throws. -/
inductive FetchErr where
  | aborted
  | genuine (msg : String)

/-- Except-view of a fetch outcome. -/
def fetchOutcome : FetchResult → Except FetchErr (List Suggestion)
  | .ok d => .ok d
  | .abortedErr => .error .aborted
  | .failure m => .error (.genuine m)

/-- The abort-controller slot of the component plus a supply of fresh
controller identities. -/
structure LookupState where
  abortCtrl : Option Nat
  nextId : Nat

/-- Actions emitted by this._abortController?.abort(). -/
def abortActs (st : LookupState) : List Act :=
  match st.abortCtrl with
  | some i => [Act.abort i]
  | none => []

/-- The catch clause of lookup in the TsB and Js variants: an AbortError
is ignored, anything else is logged. -/
def catchJb : FetchErr → List Act
  | .aborted => []
  | .genuine m => [.logError ("NetsiAddress lookup failed: " ++ m)]

/-- lookup of the TsB variant (netsi-address.ts lines 785-812), identical
in logic to lookup of the Js variant (netsi-address.js lines 222-244):
abort the outstanding controller and arm a fresh one, clear the list on
an empty trimmed query, otherwise fetch; on zero results with the
useFuzzyFallback flag truthy fetch again with fuzzy=true and tag every
returned item fuzzy; render; AbortError is swallowed, other errors are
logged. -/
def lookupJb (st : LookupState) (inputValue : String) (cfg : MergedConfig)
    (primary fuzzyRes : FetchResult) : LookupState × List Act :=
  let ctrl := st.nextId
  let st1 : LookupState := ⟨some ctrl, st.nextId + 1⟩
  let query := jsTrim inputValue
  if query.isEmpty then
    (st1, abortActs st ++ [.render []])
  else
    let params := buildQueryParametersJb inputValue cfg false
    let acts := abortActs st ++ [Act.fetch ctrl params]
    match fetchOutcome primary with
    | .error e => (st1, acts ++ catchJb e)
    | .ok data =>
      if data.length = 0 && truthy cfg.useFuzzyFallback then
        let fparams := buildQueryParametersJb inputValue cfg true
        let acts := acts ++ [Act.fetch ctrl fparams]
        match fetchOutcome fuzzyRes with
        | .error e => (st1, acts ++ catchJb e)
        | .ok fdata =>
          let tagged := if fdata.length > 0
            then fdata.map (fun s => { s with isFuzzy := true }) else fdata
          (st1, acts ++ [.render tagged])
      else (st1, acts ++ [.render data])

/-- The function _fetchData of the TsA variant (netsi-address.ts lines 370-380): abort
the outstanding controller, arm a fresh one, fetch, and tag each parsed
item with isFuzzy equal to params.has fuzzy. -/
def fetchDataTsa (st : LookupState) (params : List (String × String))
    (result : FetchResult) :
    LookupState × List Act × Except FetchErr (List Suggestion) :=
  let ctrl := st.nextId
  let st1 : LookupState := ⟨some ctrl, st.nextId + 1⟩
  match result with
  | .ok data =>
      (st1, abortActs st ++ [.fetch ctrl params],
        .ok (data.map (fun s =>
          { s with isFuzzy := params.any (fun p => p.1 = "fuzzy") })))
  | .abortedErr => (st1, abortActs st ++ [.fetch ctrl params], .error .aborted)
  | .failure m => (st1, abortActs st ++ [.fetch ctrl params], .error (.genuine m))

/-- The catch clause of lookup in the TsA variant: an AbortError is
ignored, anything else is logged and the list hidden. -/
def catchTsa : FetchErr → List Act
  | .aborted => []
  | .genuine m =>
      [.logError ("NetsiAddress: Error fetching address data: " ++ m), .hideList]

/-- lookup of the TsA variant (netsi-address.ts lines 386-409): hide the
list when the input is missing or shorter than 2 characters, otherwise
fetch via _fetchData (which aborts the previous call); on zero results
with the useFuzzyFallback flag truthy fetch again with the fuzzy
parameter; render; AbortError is swallowed, other errors are logged and
the list hidden. -/
def lookupTsa (st : LookupState) (hasInput : Bool) (inputValue : String)
    (cfg : MergedConfig) (primary fuzzyRes : FetchResult) :
    LookupState × List Act :=
  if hasInput = false ∨ inputValue.length < 2 then
    (st, [.hideList])
  else
    let params := buildQueryParametersTsa inputValue cfg false
    match fetchDataTsa st params primary with
    | (stA, actsA, resA) =>
      match resA with
      | .error e => (stA, actsA ++ catchTsa e)
      | .ok data =>
        if data.length = 0 && truthy cfg.useFuzzyFallback then
          let fparams := buildQueryParametersTsa inputValue cfg true
          match fetchDataTsa stA fparams fuzzyRes with
          | (stB, actsB, resB) =>
            match resB with
            | .error e => (stB, actsA ++ actsB ++ catchTsa e)
            | .ok fdata => (stB, actsA ++ actsB ++ [.render fdata])
        else (stA, actsA ++ [.render data])

theorem paramGet_append (ps qs : List (String × String)) (k : String) :
    paramGet (ps ++ qs) k =
      match paramGet ps k with
      | some v => some v
      | none => paramGet qs k := by
  induction ps with
  | nil => rfl
  | cons p rest ih =>
      obtain ⟨k1, v1⟩ := p
      by_cases h : k1 = k
      · simp [paramGet, h]
      · simp [paramGet, h, ih]

theorem paramGet_none_of_not_any (ps : List (String × String)) (k : String)
    (h : ps.any (fun p => p.1 = k) = false) : paramGet ps k = none := by
  induction ps with
  | nil => rfl
  | cons p rest ih =>
      obtain ⟨k1, v1⟩ := p
      simp only [List.any_cons, Bool.or_eq_false_iff] at h
      have h1 : ¬ k1 = k := by
        intro hk
        simp [hk] at h
      simp [paramGet, h1, ih h.2]

theorem paramGet_map_set_self (ps : List (String × String)) (k v : String) :
    paramGet (ps.map (fun p => if p.1 = k then (k, v) else p)) k =
      if ps.any (fun p => p.1 = k) then some v else none := by
  induction ps with
  | nil => rfl
  | cons p rest ih =>
      obtain ⟨k1, v1⟩ := p
      simp only [List.map_cons, List.any_cons]
      by_cases h : k1 = k
      · subst h
        rw [show (if ((k1, v1) : String × String).1 = k1 then (k1, v) else (k1, v1)) =
            (k1, v) from if_pos rfl]
        simp [paramGet]
      · rw [show (if ((k1, v1) : String × String).1 = k then (k, v) else (k1, v1)) =
            (k1, v1) from if_neg h]
        have hd : (decide (k1 = k)) = false := decide_eq_false_iff_not.mpr h
        simp only [hd, Bool.false_or]
        simp only [paramGet]
        rw [if_neg h]
        exact ih

theorem paramGet_map_set_other (ps : List (String × String)) (k v k2 : String)
    (h : ¬ k = k2) :
    paramGet (ps.map (fun p => if p.1 = k then (k, v) else p)) k2 = paramGet ps k2 := by
  induction ps with
  | nil => rfl
  | cons p rest ih =>
      obtain ⟨k1, v1⟩ := p
      simp only [List.map_cons]
      by_cases h1 : k1 = k
      · subst h1
        simp only [show (if ((k1, v1) : String × String).1 = k1 then (k1, v) else (k1, v1)) =
            (k1, v) from if_pos rfl]
        simp [paramGet, h, ih]
      · rw [show (if ((k1, v1) : String × String).1 = k then (k, v) else (k1, v1)) =
            (k1, v1) from if_neg h1]
        by_cases h2 : k1 = k2
        · subst h2
          simp [paramGet]
        · simp [paramGet, h2, ih]

theorem paramGet_setParam_self (ps : List (String × String)) (k v : String) :
    paramGet (setParam ps k v) k = some v := by
  unfold setParam
  by_cases h : ps.any (fun p => p.1 = k)
  · rw [if_pos h, paramGet_map_set_self, if_pos h]
  · rw [if_neg h, paramGet_append,
      paramGet_none_of_not_any _ _ (by simp only [Bool.not_eq_true] at h; exact h)]
    simp [paramGet]

theorem paramGet_setParam_other (ps : List (String × String)) (k v k2 : String)
    (h : ¬ k = k2) : paramGet (setParam ps k v) k2 = paramGet ps k2 := by
  unfold setParam
  by_cases hany : ps.any (fun p => p.1 = k)
  · rw [if_pos hany]
    exact paramGet_map_set_other _ _ _ _ h
  · rw [if_neg hany, paramGet_append]
    have h2 : paramGet [(k, v)] k2 = none := by simp [paramGet, h]
    rw [h2]
    cases paramGet ps k2 <;> rfl

theorem paramGet_foldl_setParam (extras : List (String × JsVal))
    (ps : List (String × String)) (k : String)
    (h : ∀ kv ∈ extras, ¬ kv.1 = k) :
    paramGet (extras.foldl (fun acc kv => setParam acc kv.1 (jsToString kv.2)) ps) k =
      paramGet ps k := by
  induction extras generalizing ps with
  | nil => rfl
  | cons kv rest ih =>
      simp only [List.foldl_cons]
      rw [ih _ (fun x hx => h x (List.mem_cons_of_mem _ hx))]
      exact paramGet_setParam_other _ _ _ _ (h kv (List.mem_cons_self _ _))

theorem buildQueryParametersJb_q (inputValue : String) (cfg : MergedConfig)
    (hq : ¬ (jsTrim inputValue).isEmpty = true)
    (hextra : ∀ kv ∈ cfg.extra, ¬ kv.1 = "q") :
    paramGet (buildQueryParametersJb inputValue cfg false) "q" =
      some (jsTrim inputValue) := by
  unfold buildQueryParametersJb
  simp only [Bool.not_eq_true] at hq
  simp only [hq, if_false, Bool.false_eq_true]
  rw [paramGet_foldl_setParam _ _ _ hextra]
  exact paramGet_setParam_self [] "q" (jsTrim inputValue)

theorem firstFetchParams_shape (st : LookupState) (ctrl : Nat)
    (ps : List (String × String)) (tail : List Act) :
    firstFetchParams ((abortActs st ++ [Act.fetch ctrl ps]) ++ tail) = some ps := by
  cases h : st.abortCtrl <;> simp [abortActs, h, firstFetchParams]

theorem countFetches_append (a b : List Act) :
    countFetches (a ++ b) = countFetches a + countFetches b := by
  simp [countFetches, List.filter_append]

theorem countFetches_abortActs (st : LookupState) : countFetches (abortActs st) = 0 := by
  cases h : st.abortCtrl <;> simp [abortActs, h, countFetches, isFetch]

theorem countFetches_catchJb (e : FetchErr) : countFetches (catchJb e) = 0 := by
  cases e <;> simp [catchJb, countFetches, isFetch]

theorem countFetches_catchTsa (e : FetchErr) : countFetches (catchTsa e) = 0 := by
  cases e <;> simp [catchTsa, countFetches, isFetch]

theorem buildQueryParametersTsa_hasFuzzy (inputValue : String) (cfg : MergedConfig) :
    (buildQueryParametersTsa inputValue cfg true).any (fun p => p.1 = "fuzzy") = true := by
  simp [buildQueryParametersTsa]

/-- C2: on every invocation of lookup, the previously outstanding
controller (when there is one) is aborted before anything else happens,
in particular before the new fetch is issued; a primary or fallback fetch
that settles with an AbortError leaves a trace containing neither a log
nor a render nor any other user-visible action beyond the fetches
themselves; and _fetchData of the TsA variant likewise aborts the old
controller first. -/
theorem lookup_abort_order_and_silent_cancellation
    (st : LookupState) (inputValue : String) (cfg : MergedConfig)
    (primary fuzzyRes : FetchResult) (i : Nat) :
    (st.abortCtrl = some i →
      (lookupJb st inputValue cfg primary fuzzyRes).2.head? = some (.abort i)) ∧
    (primary = .abortedErr → ¬ (jsTrim inputValue).isEmpty = true →
      (lookupJb st inputValue cfg primary fuzzyRes).2 =
        abortActs st ++
          [.fetch st.nextId (buildQueryParametersJb inputValue cfg false)]) ∧
    (primary = .ok [] → truthy cfg.useFuzzyFallback = true →
      fuzzyRes = .abortedErr → ¬ (jsTrim inputValue).isEmpty = true →
      (lookupJb st inputValue cfg primary fuzzyRes).2 =
        abortActs st ++
          [.fetch st.nextId (buildQueryParametersJb inputValue cfg false),
           .fetch st.nextId (buildQueryParametersJb inputValue cfg true)]) ∧
    (∀ params result, st.abortCtrl = some i →
      (fetchDataTsa st params result).2.1.head? = some (.abort i)) := by
  refine ⟨?_, ?_, ?_, ?_⟩
  · intro hc
    have ha : abortActs st = [Act.abort i] := by simp [abortActs, hc]
    by_cases hq : (jsTrim inputValue).isEmpty
    · simp [lookupJb, hq, ha]
    · cases primary with
      | abortedErr => simp [lookupJb, hq, ha, fetchOutcome, catchJb]
      | failure m => simp [lookupJb, hq, ha, fetchOutcome, catchJb]
      | ok data =>
        by_cases hz : (decide (data.length = 0) && truthy cfg.useFuzzyFallback) = true
        · cases fuzzyRes with
          | abortedErr => simp [lookupJb, hq, ha, fetchOutcome, catchJb, hz]
          | failure m => simp [lookupJb, hq, ha, fetchOutcome, catchJb, hz]
          | ok fdata => simp [lookupJb, hq, ha, fetchOutcome, hz]
        · simp [lookupJb, hq, ha, fetchOutcome, hz]
  · intro hp hq
    subst hp
    simp [lookupJb, hq, fetchOutcome, catchJb]
  · intro hp hf hfz hq
    subst hp
    subst hfz
    simp [lookupJb, hq, fetchOutcome, catchJb, hf]
  · intro params result hc
    cases result <;> simp [fetchDataTsa, abortActs, hc]

theorem filterIsFetch_abortActs (st : LookupState) :
    List.filter isFetch (abortActs st) = [] := by
  cases h : st.abortCtrl <;> simp [abortActs, h, isFetch]

theorem abortActs_some (i n : Nat) :
    abortActs ⟨some i, n⟩ = [Act.abort i] := rfl

/-- C3: in the TsB and Js lookup (for a non-empty trimmed query) and in
the TsA lookup (for a present input of length at least 2), exactly two
fetches occur in the trace if and only if the primary fetch returned
exactly zero results and the useFuzzyFallback flag is truthy (so with the
flag off, zero results never trigger a second call); and whenever the
fallback fetch returns data, every suggestion in the rendered list
carries isFuzzy true. -/
theorem fuzzy_fallback_iff_zero_and_flag
    (st : LookupState) (inputValue : String) (cfg : MergedConfig)
    (primary fuzzyRes : FetchResult) :
    (¬ (jsTrim inputValue).isEmpty = true →
      (countFetches (lookupJb st inputValue cfg primary fuzzyRes).2 = 2 ↔
        primary = .ok [] ∧ truthy cfg.useFuzzyFallback = true)) ∧
    (∀ fdata l, primary = .ok [] → truthy cfg.useFuzzyFallback = true →
      fuzzyRes = .ok fdata → ¬ (jsTrim inputValue).isEmpty = true →
      Act.render l ∈ (lookupJb st inputValue cfg primary fuzzyRes).2 →
      ∀ s ∈ l, s.isFuzzy = true) ∧
    (2 ≤ inputValue.length →
      (countFetches (lookupTsa st true inputValue cfg primary fuzzyRes).2 = 2 ↔
        primary = .ok [] ∧ truthy cfg.useFuzzyFallback = true)) ∧
    (∀ fdata l, 2 ≤ inputValue.length → primary = .ok [] →
      truthy cfg.useFuzzyFallback = true → fuzzyRes = .ok fdata →
      Act.render l ∈ (lookupTsa st true inputValue cfg primary fuzzyRes).2 →
      ∀ s ∈ l, s.isFuzzy = true) := by
  refine ⟨?_, ?_, ?_, ?_⟩
  · intro hq
    cases primary with
    | abortedErr =>
        simp [lookupJb, hq, fetchOutcome, catchJb, countFetches,
          List.filter_append, filterIsFetch_abortActs, isFetch]
    | failure m =>
        simp [lookupJb, hq, fetchOutcome, catchJb, countFetches,
          List.filter_append, filterIsFetch_abortActs, isFetch]
    | ok data =>
        cases data with
        | cons a rest =>
            simp [lookupJb, hq, fetchOutcome, countFetches, List.filter_append,
              filterIsFetch_abortActs, isFetch]
        | nil =>
            cases hf : truthy cfg.useFuzzyFallback with
            | false =>
                simp [lookupJb, hq, fetchOutcome, hf, countFetches,
                  List.filter_append, filterIsFetch_abortActs, isFetch]
            | true =>
                cases fuzzyRes with
                | abortedErr =>
                    simp [lookupJb, hq, fetchOutcome, catchJb, hf, countFetches,
                      List.filter_append, filterIsFetch_abortActs, isFetch]
                | failure m =>
                    simp [lookupJb, hq, fetchOutcome, catchJb, hf, countFetches,
                      List.filter_append, filterIsFetch_abortActs, isFetch]
                | ok fdata =>
                    simp [lookupJb, hq, fetchOutcome, hf, countFetches,
                      List.filter_append, filterIsFetch_abortActs, isFetch]
  · intro fdata l hp hf hfz hq hmem
    subst hp
    subst hfz
    cases fdata with
    | nil =>
        simp [lookupJb, hq, fetchOutcome, hf, abortActs] at hmem
        rcases hmem with hmem | hmem
        · cases hc : st.abortCtrl with
          | none => simp [abortActs, hc] at hmem
          | some j => simp [abortActs, hc] at hmem
        · subst hmem
          simp
    | cons a rest =>
        simp [lookupJb, hq, fetchOutcome, hf] at hmem
        rcases hmem with hmem | hmem
        · cases hc : st.abortCtrl with
          | none => simp [abortActs, hc] at hmem
          | some j => simp [abortActs, hc] at hmem
        · subst hmem
          intro s hs
          rcases List.mem_cons.mp hs with hs | hs
          · subst hs
            rfl
          · rcases List.mem_map.mp hs with ⟨t, _, ht⟩
            rw [← ht]
  · intro hlen
    have hlt : ¬ inputValue.length < 2 := by omega
    cases primary with
    | abortedErr =>
        simp [lookupTsa, hlt, fetchDataTsa, catchTsa, countFetches,
          List.filter_append, filterIsFetch_abortActs, abortActs_some, isFetch]
    | failure m =>
        simp [lookupTsa, hlt, fetchDataTsa, catchTsa, countFetches,
          List.filter_append, filterIsFetch_abortActs, abortActs_some, isFetch]
    | ok data =>
        cases data with
        | cons a rest =>
            simp [lookupTsa, hlt, fetchDataTsa, countFetches, List.filter_append,
              filterIsFetch_abortActs, abortActs_some, isFetch]
        | nil =>
            cases hf : truthy cfg.useFuzzyFallback with
            | false =>
                simp [lookupTsa, hlt, fetchDataTsa, hf, countFetches,
                  List.filter_append, filterIsFetch_abortActs, abortActs_some, isFetch]
            | true =>
                cases fuzzyRes with
                | abortedErr =>
                    simp [lookupTsa, hlt, fetchDataTsa, catchTsa, hf, countFetches,
                      List.filter_append, filterIsFetch_abortActs, abortActs_some,
                      isFetch]
                | failure m =>
                    simp [lookupTsa, hlt, fetchDataTsa, catchTsa, hf, countFetches,
                      List.filter_append, filterIsFetch_abortActs, abortActs_some,
                      isFetch]
                | ok fdata =>
                    simp [lookupTsa, hlt, fetchDataTsa, hf, countFetches,
                      List.filter_append, filterIsFetch_abortActs, abortActs_some,
                      isFetch]
  · intro fdata l hlen hp hf hfz hmem
    subst hp
    subst hfz
    have hlt : ¬ inputValue.length < 2 := by omega
    simp [lookupTsa, hlt, fetchDataTsa, hf, abortActs_some,
      buildQueryParametersTsa_hasFuzzy] at hmem
    rcases hmem with hmem | hmem
    · cases hc : st.abortCtrl with
      | none => simp [abortActs, hc] at hmem
      | some j => simp [abortActs, hc] at hmem
    · subst hmem
      intro s hs
      rcases List.mem_map.mp hs with ⟨t, _, ht⟩
      rw [← ht]

theorem firstFetchParams_shape2 (st : LookupState) (ctrl : Nat)
    (ps : List (String × String)) (l2 l3 : List Act) :
    firstFetchParams (((abortActs st ++ [Act.fetch ctrl ps]) ++ l2) ++ l3) = some ps := by
  rw [List.append_assoc]
  exact firstFetchParams_shape st ctrl ps (l2 ++ l3)

theorem firstFetchParams_lookupJb (st : LookupState) (inputValue : String)
    (cfg : MergedConfig) (primary fuzzyRes : FetchResult)
    (hq : ¬ (jsTrim inputValue).isEmpty = true) :
    firstFetchParams (lookupJb st inputValue cfg primary fuzzyRes).2 =
      some (buildQueryParametersJb inputValue cfg false) := by
  simp only [lookupJb]
  rw [if_neg hq]
  cases primary with
  | abortedErr => exact firstFetchParams_shape st st.nextId _ _
  | failure m => exact firstFetchParams_shape st st.nextId _ _
  | ok data =>
      simp only [fetchOutcome]
      split
      · cases fuzzyRes with
        | abortedErr => exact firstFetchParams_shape2 st st.nextId _ _ _
        | failure m => exact firstFetchParams_shape2 st st.nextId _ _ _
        | ok fdata => exact firstFetchParams_shape2 st st.nextId _ _ _
      · exact firstFetchParams_shape st st.nextId _ _

theorem firstFetchParams_lookupTsa (st : LookupState) (inputValue : String)
    (cfg : MergedConfig) (primary fuzzyRes : FetchResult)
    (hlt : ¬ inputValue.length < 2) :
    firstFetchParams (lookupTsa st true inputValue cfg primary fuzzyRes).2 =
      some (buildQueryParametersTsa inputValue cfg false) := by
  have hcond : ¬ (true = false ∨ inputValue.length < 2) := by
    rintro (h | h)
    · exact Bool.true_eq_false.mp h
    · exact hlt h
  simp only [lookupTsa]
  rw [if_neg hcond]
  cases primary with
  | abortedErr => exact firstFetchParams_shape st st.nextId _ _
  | failure m => exact firstFetchParams_shape st st.nextId _ _
  | ok data =>
      simp only [fetchDataTsa]
      split
      · cases fuzzyRes with
        | abortedErr => exact firstFetchParams_shape2 st st.nextId _ _ _
        | failure m => exact firstFetchParams_shape2 st st.nextId _ _ _
        | ok fdata => exact firstFetchParams_shape2 st st.nextId _ _ _
      · exact firstFetchParams_shape st st.nextId _ _

theorem buildQueryParametersTsa_q (inputValue : String) (cfg : MergedConfig) :
    paramGet (buildQueryParametersTsa inputValue cfg false) "q" = some inputValue := by
  simp [buildQueryParametersTsa, paramGet]

/-- Merged configuration with no ui entries, the fuzzy flag false and no
pass-through keys, used as a concrete fixture. -/
def emptyMergedConfig : MergedConfig := ⟨[], .bool false, []⟩

/-- C6 counterexample: in the TsA lookup (the code the claim cites), the
whitespace-only two-space input value does issue a network call, with q
bound to the raw untrimmed value, contradicting the claim that a
whitespace-only input makes no network call and that q is trimmed. -/
theorem lookup_tsa_whitespace_fetches :
    countFetches (lookupTsa ⟨none, 0⟩ true "  " emptyMergedConfig
      (.ok []) (.ok [])).2 = 1 ∧
    firstFetchParams (lookupTsa ⟨none, 0⟩ true "  " emptyMergedConfig
      (.ok []) (.ok [])).2 =
      some [("q", "  "), ("type", "adresse"), ("per_side", "10")] := by
  constructor
  · rfl
  · rfl

/-- C6 (amended): in the TsA lookup the gate is the input length, not
whitespace, and q is untrimmed: no call happens and the list is hidden
exactly when the present input is shorter than 2 characters, and an
issued call carries q equal to the raw input value.  In the TsB and Js
lookup the claim holds as stated: an empty or whitespace-only input
issues no call and the empty list is rendered (clearing and hiding the
dropdown) immediately, and an issued call carries q equal to the trimmed
input value (provided no pass-through config key is itself named q). -/
theorem lookup_query_gating
    (st : LookupState) (inputValue : String) (cfg : MergedConfig)
    (primary fuzzyRes : FetchResult) :
    (inputValue.length < 2 →
      lookupTsa st true inputValue cfg primary fuzzyRes = (st, [.hideList])) ∧
    (2 ≤ inputValue.length →
      firstFetchParams (lookupTsa st true inputValue cfg primary fuzzyRes).2 =
        some (buildQueryParametersTsa inputValue cfg false) ∧
      paramGet (buildQueryParametersTsa inputValue cfg false) "q" =
        some inputValue) ∧
    ((jsTrim inputValue).isEmpty = true →
      countFetches (lookupJb st inputValue cfg primary fuzzyRes).2 = 0 ∧
      Act.render [] ∈ (lookupJb st inputValue cfg primary fuzzyRes).2) ∧
    (¬ (jsTrim inputValue).isEmpty = true → (∀ kv ∈ cfg.extra, ¬ kv.1 = "q") →
      firstFetchParams (lookupJb st inputValue cfg primary fuzzyRes).2 =
        some (buildQueryParametersJb inputValue cfg false) ∧
      paramGet (buildQueryParametersJb inputValue cfg false) "q" =
        some (jsTrim inputValue)) := by
  refine ⟨?_, ?_, ?_, ?_⟩
  · intro hlen
    simp only [lookupTsa]
    rw [if_pos (Or.inr hlen)]
  · intro hlen
    exact ⟨firstFetchParams_lookupTsa st inputValue cfg primary fuzzyRes (by omega),
      buildQueryParametersTsa_q inputValue cfg⟩
  · intro hq
    constructor
    · simp [lookupJb, hq, countFetches, List.filter_append,
        filterIsFetch_abortActs, isFetch]
    · simp [lookupJb, hq]
  · intro hq hextra
    exact ⟨firstFetchParams_lookupJb st inputValue cfg primary fuzzyRes hq,
      buildQueryParametersJb_q inputValue cfg hq hextra⟩

/-- C6 witness: the amended gating behaviour at concrete inputs. -/
theorem lookup_query_gating_witness :
    lookupTsa ⟨none, 0⟩ true "a" emptyMergedConfig (.ok []) (.ok []) =
      (⟨none, 0⟩, [.hideList]) ∧
    paramGet (buildQueryParametersTsa "  ab " emptyMergedConfig false) "q" =
      some "  ab " ∧
    countFetches (lookupJb ⟨none, 0⟩ " " emptyMergedConfig (.ok []) (.ok [])).2 = 0 ∧
    paramGet (buildQueryParametersJb " ab " emptyMergedConfig false) "q" = some "ab" := by
  refine ⟨?_, ?_, ?_, ?_⟩
  · exact (lookup_query_gating ⟨none, 0⟩ "a" emptyMergedConfig (.ok []) (.ok [])).1
      (by decide)
  · exact ((lookup_query_gating ⟨none, 0⟩ "  ab " emptyMergedConfig (.ok [])
      (.ok [])).2.1 (by decide)).2
  · exact ((lookup_query_gating ⟨none, 0⟩ " " emptyMergedConfig (.ok [])
      (.ok [])).2.2.1 (by decide)).1
  · have h := ((lookup_query_gating ⟨none, 0⟩ " ab " emptyMergedConfig (.ok [])
      (.ok [])).2.2.2 (by decide) (by intro kv hkv; simp [emptyMergedConfig] at hkv)).2
    simpa using h

/-- Merged configuration with the fuzzy flag on, used as a fixture. -/
def fuzzyMergedConfig : MergedConfig := ⟨[], .bool true, []⟩

/-- Concrete suggestion fixture. -/
def sugX (b : Bool) : Suggestion := ⟨"x", .obj [], b⟩

/-- C2 witness: the cancellation behaviour at concrete inputs. -/
theorem lookup_abort_witness :
    (lookupJb ⟨some 0, 1⟩ "ab" emptyMergedConfig .abortedErr .abortedErr).2.head? =
      some (.abort 0) ∧
    (lookupJb ⟨some 0, 1⟩ "ab" emptyMergedConfig .abortedErr .abortedErr).2 =
      abortActs ⟨some 0, 1⟩ ++
        [.fetch 1 (buildQueryParametersJb "ab" emptyMergedConfig false)] ∧
    (lookupJb ⟨some 0, 1⟩ "ab" fuzzyMergedConfig (.ok []) .abortedErr).2 =
      abortActs ⟨some 0, 1⟩ ++
        [.fetch 1 (buildQueryParametersJb "ab" fuzzyMergedConfig false),
         .fetch 1 (buildQueryParametersJb "ab" fuzzyMergedConfig true)] ∧
    (fetchDataTsa ⟨some 0, 1⟩ [] .abortedErr).2.1.head? = some (.abort 0) := by
  refine ⟨?_, ?_, ?_, ?_⟩
  · exact (lookup_abort_order_and_silent_cancellation ⟨some 0, 1⟩ "ab"
      emptyMergedConfig .abortedErr .abortedErr 0).1 rfl
  · exact (lookup_abort_order_and_silent_cancellation ⟨some 0, 1⟩ "ab"
      emptyMergedConfig .abortedErr .abortedErr 0).2.1 rfl (by decide)
  · exact (lookup_abort_order_and_silent_cancellation ⟨some 0, 1⟩ "ab"
      fuzzyMergedConfig (.ok []) .abortedErr 0).2.2.1 rfl rfl rfl (by decide)
  · exact (lookup_abort_order_and_silent_cancellation ⟨some 0, 1⟩ "ab"
      emptyMergedConfig .abortedErr .abortedErr 0).2.2.2 [] .abortedErr rfl

/-- C3 witness: the fallback and tagging behaviour at concrete inputs. -/
theorem fuzzy_fallback_witness :
    countFetches (lookupJb ⟨none, 0⟩ "ab" fuzzyMergedConfig (.ok [])
      (.ok [sugX false])).2 = 2 ∧
    (sugX true).isFuzzy = true ∧
    countFetches (lookupTsa ⟨none, 0⟩ true "ab" fuzzyMergedConfig (.ok [])
      (.ok [sugX false])).2 = 2 := by
  refine ⟨?_, ?_, ?_⟩
  · exact ((fuzzy_fallback_iff_zero_and_flag ⟨none, 0⟩ "ab" fuzzyMergedConfig
      (.ok []) (.ok [sugX false])).1 (by decide)).mpr ⟨rfl, rfl⟩
  · exact (fuzzy_fallback_iff_zero_and_flag ⟨none, 0⟩ "ab" fuzzyMergedConfig
      (.ok []) (.ok [sugX false])).2.1 [sugX false] [sugX true] rfl rfl rfl
      (by decide) (.tail _ (.tail _ (.head _))) (sugX true) (List.Mem.head _)
  · exact ((fuzzy_fallback_iff_zero_and_flag ⟨none, 0⟩ "ab" fuzzyMergedConfig
      (.ok []) (.ok [sugX false])).2.2.1 (by decide)).mpr ⟨rfl, rfl⟩

/-- Where a selector resolves in the document: no element at all, a form
control (assignment into value), or a plain element (assignment into
textContent).  Only the Js variant distinguishes the last two. -/
inductive DomTarget where
  | missing
  | formControl
  | textEl
deriving DecidableEq

/-- Outcome of the follow-up detail fetch of a suggestion href: the
parsed full record, or any failure (non-2xx status or transport error)
with its message. -/
inductive DetailResult where
  | ok (data : JsVal)
  | err (msg : String)

/-- The value _getValue returns (total by getValue_total_and_examples). -/
def getValueTsV (o : JsVal) (path : String) : JsVal :=
  match getValueTs o path with
  | .ok v => v
  | .error _ => .undefv

/-- The value the Js populate path resolution returns (total by
getValue_total_and_examples). -/
def getValueJsV (o : JsVal) (path : String) : JsVal :=
  match getValueJs o path with
  | .ok v => v
  | .error _ => .str ""

/-- The loop of _populate in the TsB variant (netsi-address.ts lines
853-868): skip the address key, skip mappings whose selector matches no
element, otherwise assign the mapped (or raw) value; a throwing mapper
propagates out of the loop, abandoning the remaining mappings. -/
def populateLoopTsb (addressData : JsVal) (dom : String → Bool) :
    List (String × UiMapping) → List Act → List Act × Option String
  | [], acc => (acc, none)
  | (key, m) :: rest, acc =>
    if key = "address" then populateLoopTsb addressData dom rest acc
    else if dom (selectorOf m) then
      match mapperOf m with
      | none =>
          populateLoopTsb addressData dom rest
            (acc ++ [.setField (selectorOf m) (getValueTsV addressData key)])
      | some f =>
          match f (getValueTsV addressData key) addressData with
          | .ok v =>
              populateLoopTsb addressData dom rest
                (acc ++ [.setField (selectorOf m) v])
          | .error e => (acc, some e)
    else populateLoopTsb addressData dom rest acc

/-- The function _populate of the TsB variant (netsi-address.ts lines 845-869): first
write adressebetegnelse into the primary input, then run the mapping
loop. -/
def populateTsb (addressData : JsVal) (ui : List (String × UiMapping))
    (hasInput : Bool) (dom : String → Bool) : List Act × Option String :=
  populateLoopTsb addressData dom ui
    (if hasInput then [.setInput (getPropD addressData "adressebetegnelse")] else [])

/-- The partial-record test of select in the TsB variant (line 818):
not addressData.adgangsadresse?.kommune, and addressData.href truthy. -/
def needFetchTsb (adresse : JsVal) : Bool :=
  !truthy (optGetProp (getPropD adresse "adgangsadresse") "kommune")
    && truthy (getPropD adresse "href")

/-- select of the TsB variant (netsi-address.ts lines 814-843): return on
a missing suggestion or falsy record; fetch the full record from href
when the partial-record test fires, aborting the whole selection on a
failed detail fetch (log only); then populate, hide the list and
dispatch the bubbling, composed netsi-address:select event whose detail
wraps the resolved record under the address key. -/
def selectTsb (item : Option Suggestion) (ui : List (String × UiMapping))
    (hasInput : Bool) (dom : String → Bool) (detail : DetailResult) :
    List Act × Option String :=
  match item with
  | none => ([], none)
  | some s =>
    if truthy s.adresse = false then ([], none)
    else if needFetchTsb s.adresse then
      match detail with
      | .err m =>
          ([.detailFetch (jsToString (getPropD s.adresse "href")),
            .logError ("NetsiAddress select failed: " ++ m)], none)
      | .ok full =>
          match populateTsb full ui hasInput dom with
          | (pacts, some e) =>
              (Act.detailFetch (jsToString (getPropD s.adresse "href")) :: pacts,
                some e)
          | (pacts, none) =>
              (Act.detailFetch (jsToString (getPropD s.adresse "href")) :: pacts ++
                [.hideList,
                 .dispatch "netsi-address:select" true true (.obj [("address", full)])],
                none)
    else
      match populateTsb s.adresse ui hasInput dom with
      | (pacts, some e) => (pacts, some e)
      | (pacts, none) =>
          (pacts ++
            [.hideList,
             .dispatch "netsi-address:select" true true (.obj [("address", s.adresse)])],
            none)

/-- The assignment step of the Js populate loop: value for form controls,
textContent otherwise, nothing when the element is missing. -/
def writeActJs : DomTarget → String → JsVal → List Act
  | .missing, _, _ => []
  | .formControl, sel, v => [.setField sel v]
  | .textEl, sel, v => [.setText sel v]

/-- One iteration of _populate in the Js variant (netsi-address.js lines
270-296): skip the address key and mappings whose selector matches no
element; resolve the dot path with the null-to-empty rule; a throwing
mapper is caught and logged and only this field is skipped. -/
def entryJs (addressData : JsVal) (dom : String → DomTarget)
    (kv : String × UiMapping) : List Act :=
  if kv.1 = "address" then []
  else
    match dom (selectorOf kv.2) with
    | .missing => []
    | tgt =>
      match mapperOf kv.2 with
      | none => writeActJs tgt (selectorOf kv.2) (getValueJsV addressData kv.1)
      | some f =>
        match f (getValueJsV addressData kv.1) addressData with
        | .ok v => writeActJs tgt (selectorOf kv.2) v
        | .error e =>
            [.logError ("Mapper function for path " ++ kv.1 ++ " failed: " ++ e)]

/-- The function _populate of the Js variant (netsi-address.js lines 269-297): the
loop over all ui mappings, one entry at a time. -/
def populateJs (addressData : JsVal) (ui : List (String × UiMapping))
    (dom : String → DomTarget) : List Act :=
  ui.flatMap (entryJs addressData dom)

/-- The partial-record test of select in the Js variant (line 248):
not addressData.kommune, and addressData.href truthy. -/
def needFetchJs (adresse : JsVal) : Bool :=
  !truthy (getPropD adresse "kommune") && truthy (getPropD adresse "href")

/-- select of the Js variant (netsi-address.js lines 245-268): return on
a missing suggestion or falsy record; fetch the full record from href
when the partial-record test fires, aborting the selection on failure
(log only); then hide the list, write the suggestion text into the
primary input, populate, and dispatch the bubbling, composed
netsi-address:select event carrying the resolved record as detail. -/
def selectJs (item : Option Suggestion) (ui : List (String × UiMapping))
    (hasInput : Bool) (dom : String → DomTarget) (detail : DetailResult) :
    List Act :=
  match item with
  | none => []
  | some s =>
    if truthy s.adresse = false then []
    else if needFetchJs s.adresse then
      match detail with
      | .err m =>
          [.detailFetch (jsToString (getPropD s.adresse "href")),
           .logError ("Failed to select address: " ++ m)]
      | .ok full =>
          Act.detailFetch (jsToString (getPropD s.adresse "href")) ::
            [Act.hideList] ++
            (if hasInput then [Act.setInput (.str s.tekst)] else []) ++
            populateJs full ui dom ++
            [.dispatch "netsi-address:select" true true full]
    else
      [Act.hideList] ++
        (if hasInput then [Act.setInput (.str s.tekst)] else []) ++
        populateJs s.adresse ui dom ++
        [.dispatch "netsi-address:select" true true s.adresse]

/-- The loop of _populate in the TsA variant (netsi-address.ts lines
437-453): iterate every ui entry (including address); a plain selector
mapping uses the default String(val ?? "") coercion, an object mapping
uses its mapper, whose exception propagates and abandons the remaining
mappings; mappings whose selector matches no element are skipped. -/
def populateLoopTsa (addressData : JsVal) (dom : String → Bool) :
    List (String × UiMapping) → List Act → List Act × Option String
  | [], acc => (acc, none)
  | (key, m) :: rest, acc =>
      if dom (selectorOf m) then
        match
          (match m with
            | .sel _ =>
                Except.ok (JsVal.str (jsToString
                  (jsNullToEmpty (getValueTsV addressData key))))
            | .selMap _ f => f (getValueTsV addressData key) addressData) with
        | .ok v =>
            populateLoopTsa addressData dom rest
              (acc ++ [.setField (selectorOf m) v])
        | .error e => (acc, some e)
      else populateLoopTsa addressData dom rest acc

/-- select of the TsA variant (netsi-address.ts lines 416-432): hide the
list, dispatch the bubbling, composed netsi-address:select event (detail
wraps the record under the address key), write the suggestion text into
the primary input, then populate. -/
def selectTsa (item : Suggestion) (ui : List (String × UiMapping))
    (hasInput : Bool) (dom : String → Bool) : List Act × Option String :=
  match populateLoopTsa item.adresse dom ui [] with
  | (pacts, thrown) =>
      (([Act.hideList,
         Act.dispatch "netsi-address:select" true true (.obj [("address", item.adresse)])] ++
        (if hasInput then [Act.setInput (.str item.tekst)] else [])) ++ pacts,
        thrown)

/-- The payload of a setInput action, when the action is one. -/
def isSetInputV : Act → Option JsVal
  | .setInput v => some v
  | _ => none

/-- Values written into the primary search input over a trace. -/
def inputWrites (tr : List Act) : List JsVal :=
  tr.filterMap isSetInputV

theorem populateLoopTsb_pure (addressData : JsVal) (dom : String → Bool) :
    ∀ (ui : List (String × UiMapping)) (acc : List Act),
      (∀ a ∈ acc, isDispatch a = false) →
      ∀ a ∈ (populateLoopTsb addressData dom ui acc).1, isDispatch a = false := by
  intro ui
  induction ui with
  | nil =>
      intro acc hacc a ha
      exact hacc a ha
  | cons kv rest ih =>
      intro acc hacc a ha
      obtain ⟨key, m⟩ := kv
      by_cases hkey : key = "address"
      · simp only [populateLoopTsb, hkey, if_true, if_pos] at ha
        exact ih acc hacc a ha
      · by_cases hdom : dom (selectorOf m) = true
        · cases m with
          | sel s =>
              simp only [populateLoopTsb, hkey, hdom, if_false, if_true, ite_true,
                ite_false, mapperOf] at ha
              refine ih _ ?_ a ha
              intro b hb
              rcases List.mem_append.mp hb with hb | hb
              · exact hacc b hb
              · simp at hb
                subst hb
                rfl
          | selMap s f =>
              simp only [populateLoopTsb, hkey, hdom, if_false, if_true, ite_true,
                ite_false, mapperOf] at ha
              cases hres : f (getValueTsV addressData key) addressData with
              | ok v =>
                  simp only [hres] at ha
                  refine ih _ ?_ a ha
                  intro b hb
                  rcases List.mem_append.mp hb with hb | hb
                  · exact hacc b hb
                  · simp at hb
                    subst hb
                    rfl
              | error e =>
                  simp only [hres] at ha
                  exact hacc a ha
        · simp only [populateLoopTsb, hkey, hdom, if_false, ite_false] at ha
          exact ih acc hacc a ha

theorem inputWrites_append (a b : List Act) :
    inputWrites (a ++ b) = inputWrites a ++ inputWrites b := by
  simp [inputWrites, List.filterMap_append]

theorem inputWrites_populateLoopTsb (addressData : JsVal) (dom : String → Bool) :
    ∀ (ui : List (String × UiMapping)) (acc : List Act),
      inputWrites (populateLoopTsb addressData dom ui acc).1 = inputWrites acc := by
  intro ui
  induction ui with
  | nil => intro acc; rfl
  | cons kv rest ih =>
      intro acc
      obtain ⟨key, m⟩ := kv
      by_cases hkey : key = "address"
      · simp only [populateLoopTsb, hkey, if_true, ite_true]
        exact ih acc
      · by_cases hdom : dom (selectorOf m) = true
        · cases m with
          | sel s =>
              simp only [populateLoopTsb, hkey, hdom, if_false, ite_false, if_true,
                ite_true, mapperOf]
              rw [ih, inputWrites_append]
              simp [inputWrites, isSetInputV]
          | selMap s f =>
              simp only [populateLoopTsb, hkey, hdom, if_false, ite_false, if_true,
                ite_true, mapperOf]
              cases hres : f (getValueTsV addressData key) addressData with
              | ok v =>
                  simp only [hres]
                  rw [ih, inputWrites_append]
                  simp [inputWrites, isSetInputV]
              | error e => simp only [hres]
        · simp only [populateLoopTsb, hkey, hdom, if_false, ite_false]
          exact ih acc

theorem inputWrites_populateLoopTsa (addressData : JsVal) (dom : String → Bool) :
    ∀ (ui : List (String × UiMapping)) (acc : List Act),
      inputWrites (populateLoopTsa addressData dom ui acc).1 = inputWrites acc := by
  intro ui
  induction ui with
  | nil => intro acc; rfl
  | cons kv rest ih =>
      intro acc
      obtain ⟨key, m⟩ := kv
      by_cases hdom : dom (selectorOf m) = true
      · cases m with
        | sel s =>
            simp only [populateLoopTsa, hdom, if_true, ite_true]
            rw [ih, inputWrites_append]
            simp [inputWrites, isSetInputV]
        | selMap s f =>
            simp only [populateLoopTsa, hdom, if_true, ite_true]
            cases hres : f (getValueTsV addressData key) addressData with
            | ok v =>
                simp only [hres]
                rw [ih, inputWrites_append]
                simp [inputWrites, isSetInputV]
            | error e => simp only [hres]
      · simp only [populateLoopTsa, hdom, if_false, ite_false]
        exact ih acc

theorem writeActJs_actions (tgt : DomTarget) (sel : String) (v : JsVal) (a : Act)
    (ha : a ∈ writeActJs tgt sel v) :
    isDispatch a = false ∧ isSetInputV a = none := by
  cases tgt with
  | missing => simp [writeActJs] at ha
  | formControl =>
      simp [writeActJs] at ha
      subst ha
      exact ⟨rfl, rfl⟩
  | textEl =>
      simp [writeActJs] at ha
      subst ha
      exact ⟨rfl, rfl⟩

theorem entryJs_actions (addressData : JsVal) (dom : String → DomTarget)
    (kv : String × UiMapping) (a : Act) (ha : a ∈ entryJs addressData dom kv) :
    isDispatch a = false ∧ isSetInputV a = none := by
  obtain ⟨key, m⟩ := kv
  by_cases hkey : key = "address"
  · simp only [entryJs, hkey, if_true, ite_true] at ha
    simp at ha
  · cases hd : dom (selectorOf m) with
    | missing =>
        simp only [entryJs, hkey, if_false, ite_false, hd] at ha
        simp at ha
    | formControl =>
        cases m with
        | sel s =>
            simp only [entryJs, hkey, if_false, ite_false, hd, mapperOf] at ha
            exact writeActJs_actions _ _ _ _ ha
        | selMap s f =>
            simp only [entryJs, hkey, if_false, ite_false, hd, mapperOf] at ha
            cases hres : f (getValueJsV addressData key) addressData with
            | ok v =>
                simp only [hres] at ha
                exact writeActJs_actions _ _ _ _ ha
            | error e =>
                simp only [hres] at ha
                simp at ha
                subst ha
                exact ⟨rfl, rfl⟩
    | textEl =>
        cases m with
        | sel s =>
            simp only [entryJs, hkey, if_false, ite_false, hd, mapperOf] at ha
            exact writeActJs_actions _ _ _ _ ha
        | selMap s f =>
            simp only [entryJs, hkey, if_false, ite_false, hd, mapperOf] at ha
            cases hres : f (getValueJsV addressData key) addressData with
            | ok v =>
                simp only [hres] at ha
                exact writeActJs_actions _ _ _ _ ha
            | error e =>
                simp only [hres] at ha
                simp at ha
                subst ha
                exact ⟨rfl, rfl⟩

theorem filter_isDispatch_populateJs (addressData : JsVal)
    (ui : List (String × UiMapping)) (dom : String → DomTarget) :
    (populateJs addressData ui dom).filter isDispatch = [] := by
  rw [List.filter_eq_nil_iff]
  intro a ha
  rcases List.mem_flatMap.mp ha with ⟨kv, _, hkv⟩
  simp [(entryJs_actions addressData dom kv a hkv).1]

theorem inputWrites_populateJs (addressData : JsVal)
    (ui : List (String × UiMapping)) (dom : String → DomTarget) :
    inputWrites (populateJs addressData ui dom) = [] := by
  unfold inputWrites
  rw [List.filterMap_eq_nil_iff]
  intro a ha
  rcases List.mem_flatMap.mp ha with ⟨kv, _, hkv⟩
  exact (entryJs_actions addressData dom kv a hkv).2

theorem filter_isDispatch_populateTsb (addressData : JsVal)
    (ui : List (String × UiMapping)) (hasInput : Bool) (dom : String → Bool) :
    ((populateTsb addressData ui hasInput dom).1).filter isDispatch = [] := by
  rw [List.filter_eq_nil_iff]
  intro a ha
  have h := populateLoopTsb_pure addressData dom ui
    (if hasInput then [.setInput (getPropD addressData "adressebetegnelse")] else [])
    (by
      intro b hb
      cases hasInput with
      | true => simp at hb; subst hb; rfl
      | false => simp at hb) a ha
  simp [h]

/-- C4: in both cited select implementations (TsB and Js), when the
suggestion carries a partial record (the kommune probe fails and a href
is present) and the detail fetch of the href fails, the selection aborts
entirely: the trace holds no form-field or input write and no event; on
the successful paths exactly one dispatch occurs, a bubbling, composed
event named netsi-address:select whose payload is the resolved record
(wrapped under the address key by the TsB variant, the record itself in
the Js variant). -/
theorem select_detail_failure_aborts_and_single_event
    (s : Suggestion) (ui : List (String × UiMapping)) (hasInput : Bool)
    (domB : String → Bool) (domJ : String → DomTarget) (m : String) (full : JsVal) :
    (truthy s.adresse = true → needFetchTsb s.adresse = true →
      ∀ a ∈ (selectTsb (some s) ui hasInput domB (.err m)).1,
        isWrite a = false ∧ isDispatch a = false) ∧
    (truthy s.adresse = true → needFetchTsb s.adresse = true →
      (populateTsb full ui hasInput domB).2 = none →
      (selectTsb (some s) ui hasInput domB (.ok full)).1.filter isDispatch =
        [.dispatch "netsi-address:select" true true (.obj [("address", full)])]) ∧
    (truthy s.adresse = true → needFetchTsb s.adresse = false →
      (populateTsb s.adresse ui hasInput domB).2 = none →
      (selectTsb (some s) ui hasInput domB (.ok full)).1.filter isDispatch =
        [.dispatch "netsi-address:select" true true (.obj [("address", s.adresse)])]) ∧
    (truthy s.adresse = true → needFetchJs s.adresse = true →
      ∀ a ∈ selectJs (some s) ui hasInput domJ (.err m),
        isWrite a = false ∧ isDispatch a = false) ∧
    (truthy s.adresse = true → needFetchJs s.adresse = true →
      (selectJs (some s) ui hasInput domJ (.ok full)).filter isDispatch =
        [.dispatch "netsi-address:select" true true full]) ∧
    (truthy s.adresse = true → needFetchJs s.adresse = false →
      (selectJs (some s) ui hasInput domJ (.ok full)).filter isDispatch =
        [.dispatch "netsi-address:select" true true s.adresse]) := by
  refine ⟨?_, ?_, ?_, ?_, ?_, ?_⟩
  · intro h1 h2
    simp [selectTsb, h1, h2, isWrite, isDispatch]
  · intro h1 h2 h3
    rcases hp : populateTsb full ui hasInput domB with ⟨pacts, thrown⟩
    rw [hp] at h3
    simp only at h3
    subst h3
    have hfd := filter_isDispatch_populateTsb full ui hasInput domB
    rw [hp] at hfd
    simp only at hfd
    simp [selectTsb, h1, h2, hp, List.filter_cons, List.filter_append, hfd,
      isDispatch]
  · intro h1 h2 h3
    rcases hp : populateTsb s.adresse ui hasInput domB with ⟨pacts, thrown⟩
    rw [hp] at h3
    simp only at h3
    subst h3
    have hfd := filter_isDispatch_populateTsb s.adresse ui hasInput domB
    rw [hp] at hfd
    simp only at hfd
    simp [selectTsb, h1, h2, hp, List.filter_cons, List.filter_append, hfd,
      isDispatch]
  · intro h1 h2
    simp [selectJs, h1, h2, isWrite, isDispatch]
  · intro h1 h2
    cases hasInput <;>
      simp [selectJs, h1, h2, List.filter_cons, List.filter_append,
        filter_isDispatch_populateJs, isDispatch]
  · intro h1 h2
    cases hasInput <;>
      simp [selectJs, h1, h2, List.filter_cons, List.filter_append,
        filter_isDispatch_populateJs, isDispatch]

/-- Partially populated suggestion: no kommune anywhere, href present. -/
def needsFetchSug : Suggestion := ⟨"A", .obj [("href", .str "u")], false⟩

/-- A full record fixture. -/
def fullRec : JsVal := .obj [("adressebetegnelse", .str "F")]

/-- C4 witness: the abort-on-failure and single-event behaviour at
concrete inputs. -/
theorem select_detail_witness :
    (isWrite (Act.detailFetch "u") = false ∧
      isDispatch (Act.detailFetch "u") = false) ∧
    ((selectTsb (some needsFetchSug) [] true (fun _ => true) (.ok fullRec)).1.filter
        isDispatch =
      [.dispatch "netsi-address:select" true true (.obj [("address", fullRec)])]) ∧
    ((selectJs (some needsFetchSug) [] true (fun _ => .formControl)
        (.ok fullRec)).filter isDispatch =
      [.dispatch "netsi-address:select" true true fullRec]) := by
  refine ⟨?_, ?_, ?_⟩
  · exact (select_detail_failure_aborts_and_single_event needsFetchSug [] true
      (fun _ => true) (fun _ => .formControl) "fail" fullRec).1 rfl rfl
      (Act.detailFetch "u") (List.Mem.head _)
  · exact (select_detail_failure_aborts_and_single_event needsFetchSug [] true
      (fun _ => true) (fun _ => .formControl) "fail" fullRec).2.1 rfl rfl rfl
  · exact (select_detail_failure_aborts_and_single_event needsFetchSug [] true
      (fun _ => true) (fun _ => .formControl) "fail" fullRec).2.2.2.2.1 rfl rfl

/-- A mapper that always throws, fixture for the transform-failure
claims. -/
def boomMapper : JsVal → JsVal → Except String JsVal := fun _ _ => .error "boom"

/-- C5 counterexample: in both cited TypeScript _populate variants a
throwing mapper on the first mapping abandons the whole loop: the result
carries the uncaught error and contains no write at all, in particular
none for the second mapping whose selector does match an element —
contradicting the claim that only the failing field is skipped and the
rest still populate. -/
theorem populate_ts_mapper_throw_skips_rest :
    populateTsb (.obj []) [("p", .selMap "#s1" boomMapper), ("q2", .sel "#s2")]
      false (fun _ => true) = ([], some "boom") ∧
    populateLoopTsa (.obj []) (fun _ => true)
      [("p", .selMap "#s1" boomMapper), ("q2", .sel "#s2")] [] =
      ([], some "boom") := ⟨rfl, rfl⟩

/-- C5 (amended): the per-field isolation holds in the Js _populate: a
throwing mapper is caught and logged in place, leaving the surrounding
mappings untouched, and a mapping whose selector matches no element
contributes nothing; in the TsB and TsA _populate a throwing mapper
instead propagates, abandoning all remaining mappings. -/
theorem populate_js_isolation
    (addressData : JsVal) (domJ : String → DomTarget) (domB : String → Bool)
    (pre post rest : List (String × UiMapping)) (key sel : String)
    (f : JsVal → JsVal → Except String JsVal) (e : String) (m : UiMapping)
    (acc : List Act) :
    (¬ key = "address" → ¬ domJ sel = .missing →
      f (getValueJsV addressData key) addressData = .error e →
      populateJs addressData (pre ++ (key, .selMap sel f) :: post) domJ =
        populateJs addressData pre domJ ++
          [.logError ("Mapper function for path " ++ key ++ " failed: " ++ e)] ++
          populateJs addressData post domJ) ∧
    (domJ (selectorOf m) = .missing →
      populateJs addressData (pre ++ (key, m) :: post) domJ =
        populateJs addressData pre domJ ++ populateJs addressData post domJ) ∧
    (¬ key = "address" → domB sel = true →
      f (getValueTsV addressData key) addressData = .error e →
      populateLoopTsb addressData domB ((key, .selMap sel f) :: rest) acc =
        (acc, some e)) ∧
    (domB sel = true →
      f (getValueTsV addressData key) addressData = .error e →
      populateLoopTsa addressData domB ((key, .selMap sel f) :: rest) acc =
        (acc, some e)) := by
  refine ⟨?_, ?_, ?_, ?_⟩
  · intro hkey hdom herr
    have hmid : entryJs addressData domJ (key, .selMap sel f) =
        [.logError ("Mapper function for path " ++ key ++ " failed: " ++ e)] := by
      cases hd : domJ sel with
      | missing => exact absurd hd hdom
      | formControl => simp [entryJs, hkey, selectorOf, mapperOf, hd, herr]
      | textEl => simp [entryJs, hkey, selectorOf, mapperOf, hd, herr]
    simp only [populateJs, List.flatMap_append, List.flatMap_cons, hmid]
    simp [List.append_assoc]
  · intro hdom
    have hmid : entryJs addressData domJ (key, m) = [] := by
      by_cases hkey : key = "address"
      · simp [entryJs, hkey]
      · simp [entryJs, hkey, hdom]
    simp only [populateJs, List.flatMap_append, List.flatMap_cons, hmid]
    simp
  · intro hkey hdom herr
    simp [populateLoopTsb, hkey, hdom, selectorOf, mapperOf, herr]
  · intro hdom herr
    simp [populateLoopTsa, hdom, selectorOf, herr]

/-- C5 witness: the Js isolation and the TypeScript propagation at
concrete inputs. -/
theorem populate_js_isolation_witness :
    populateJs (.obj []) [("x", .sel "#s0"), ("a1", .selMap "#s1" boomMapper),
        ("y", .sel "#s2")] (fun _ => .formControl) =
      populateJs (.obj []) [("x", .sel "#s0")] (fun _ => .formControl) ++
        [.logError ("Mapper function for path " ++ "a1" ++ " failed: " ++ "boom")] ++
        populateJs (.obj []) [("y", .sel "#s2")] (fun _ => .formControl) ∧
    populateLoopTsb (.obj []) (fun _ => true)
      [("a1", .selMap "#s1" boomMapper)] [] = ([], some "boom") ∧
    populateLoopTsa (.obj []) (fun _ => true)
      [("a1", .selMap "#s1" boomMapper)] [] = ([], some "boom") := by
  refine ⟨?_, ?_, ?_⟩
  · exact (populate_js_isolation (.obj []) (fun _ => .formControl) (fun _ => true)
      [("x", .sel "#s0")] [("y", .sel "#s2")] [] "a1" "#s1" boomMapper "boom"
      (.sel "#s1") []).1 (by decide) (by decide) rfl
  · exact (populate_js_isolation (.obj []) (fun _ => .formControl) (fun _ => true)
      [("x", .sel "#s0")] [("y", .sel "#s2")] [] "a1" "#s1" boomMapper "boom"
      (.sel "#s1") []).2.2.1 (by decide) rfl rfl
  · exact (populate_js_isolation (.obj []) (fun _ => .formControl) (fun _ => true)
      [("x", .sel "#s0")] [("y", .sel "#s2")] [] "a1" "#s1" boomMapper "boom"
      (.sel "#s1") []).2.2.2 rfl rfl

/-- C10: select with a missing suggestion, or a suggestion whose adresse
field is absent or falsy, returns immediately with a completely empty
trace in both cited implementations: the list is not closed, nothing is
written and no event is dispatched. -/
theorem select_null_guard_no_effect
    (ui : List (String × UiMapping)) (hasInput : Bool) (domB : String → Bool)
    (domJ : String → DomTarget) (detail : DetailResult) (s : Suggestion) :
    selectTsb none ui hasInput domB detail = ([], none) ∧
    (truthy s.adresse = false →
      selectTsb (some s) ui hasInput domB detail = ([], none)) ∧
    selectJs none ui hasInput domJ detail = [] ∧
    (truthy s.adresse = false →
      selectJs (some s) ui hasInput domJ detail = []) := by
  refine ⟨rfl, ?_, rfl, ?_⟩
  · intro h
    simp [selectTsb, h]
  · intro h
    simp [selectJs, h]

/-- C10 witness: the guard at a concrete record-less suggestion. -/
theorem select_null_guard_witness :
    selectTsb (some ⟨"t", .undefv, false⟩) [] true (fun _ => true) (.ok .undefv) =
      ([], none) ∧
    selectJs (some ⟨"t", .undefv, false⟩) [] true (fun _ => .formControl)
      (.ok .undefv) = [] := by
  constructor
  · exact (select_null_guard_no_effect [] true (fun _ => true)
      (fun _ => .formControl) (.ok .undefv) ⟨"t", .undefv, false⟩).2.1 rfl
  · exact (select_null_guard_no_effect [] true (fun _ => true)
      (fun _ => .formControl) (.ok .undefv) ⟨"t", .undefv, false⟩).2.2.2 rfl

/-- Suggestion whose display text differs from the record description;
kommune is present so no detail fetch fires. -/
def sugMismatch : Suggestion :=
  ⟨"A, 1 X",
   .obj [("adressebetegnelse", .str "B, 2 Y"),
         ("adgangsadresse", .obj [("kommune", .obj [("kode", .str "0751")])])],
   false⟩

/-- C7 counterexample: in the TsB variant (its _populate is cited by the
claim), a successful selection writes the resolved record field
adressebetegnelse into the primary search field, not the suggestion
display text: at this concrete input the only input write is the string
B, 2 Y while the display text is A, 1 X. -/
theorem select_tsb_writes_betegnelse_not_tekst :
    inputWrites (selectTsb (some sugMismatch) [] true (fun _ => true)
        (.ok .undefv)).1 = [JsVal.str "B, 2 Y"] ∧
    sugMismatch.tekst = "A, 1 X" ∧
    ¬ (JsVal.str "B, 2 Y" = JsVal.str "A, 1 X") := by
  refine ⟨rfl, rfl, ?_⟩
  intro h
  injection h with h1
  exact absurd h1 (by decide)

theorem inputWrites_nil : inputWrites [] = [] := rfl

theorem inputWrites_cons_none (a : Act) (tr : List Act) (h : isSetInputV a = none) :
    inputWrites (a :: tr) = inputWrites tr := by
  simp [inputWrites, List.filterMap_cons, h]

theorem inputWrites_cons_some (v : JsVal) (tr : List Act) :
    inputWrites (Act.setInput v :: tr) = v :: inputWrites tr := by
  simp [inputWrites, List.filterMap_cons, isSetInputV]

/-- C7 (amended): on a successful selection the TsA variant and the Js
variant write the suggestion display text (tekst) into the primary
search field, while the TsB variant writes the resolved record field
adressebetegnelse instead. -/
theorem select_input_write_rules
    (s : Suggestion) (ui : List (String × UiMapping)) (domB : String → Bool)
    (domJ : String → DomTarget) (full : JsVal) :
    inputWrites (selectTsa s ui true domB).1 = [JsVal.str s.tekst] ∧
    (truthy s.adresse = true → needFetchJs s.adresse = false →
      inputWrites (selectJs (some s) ui true domJ (.ok full)) =
        [JsVal.str s.tekst]) ∧
    (truthy s.adresse = true → needFetchTsb s.adresse = false →
      inputWrites (selectTsb (some s) ui true domB (.ok full)).1 =
        [getPropD s.adresse "adressebetegnelse"]) := by
  refine ⟨?_, ?_, ?_⟩
  · rcases hp : populateLoopTsa s.adresse domB ui [] with ⟨pacts, thrown⟩
    have hw := inputWrites_populateLoopTsa s.adresse domB ui []
    rw [hp] at hw
    simp only at hw
    simp only [selectTsa, hp]
    rw [inputWrites_append, hw]
    simp [inputWrites, isSetInputV]
  · intro h1 h2
    simp only [selectJs]
    simp [h1, h2]
    simp [inputWrites_cons_none, inputWrites_cons_some, inputWrites_append,
      inputWrites_populateJs, inputWrites_nil, isSetInputV]
  · intro h1 h2
    rcases hp : populateTsb s.adresse ui true domB with ⟨pacts, thrown⟩
    have hw := inputWrites_populateLoopTsb s.adresse domB ui
      [.setInput (getPropD s.adresse "adressebetegnelse")]
    rw [show populateLoopTsb s.adresse domB ui
        [.setInput (getPropD s.adresse "adressebetegnelse")] =
        populateTsb s.adresse ui true domB from rfl, hp] at hw
    simp only at hw
    rw [inputWrites_cons_some, inputWrites_nil] at hw
    cases thrown with
    | none =>
        simp only [selectTsb]
        simp [h1, h2, hp]
        simp only [inputWrites_append, hw]
        simp [inputWrites, isSetInputV]
    | some e =>
        simp only [selectTsb]
        simp [h1, h2, hp]
        exact hw

/-- C7 witness: the amended write rules at a concrete mismatching
suggestion. -/
theorem select_input_write_witness :
    inputWrites (selectTsa sugMismatch [] true (fun _ => true)).1 =
      [JsVal.str "A, 1 X"] ∧
    inputWrites (selectJs (some sugMismatch) [] true (fun _ => .formControl)
        (.ok .undefv)) = [JsVal.str "A, 1 X"] ∧
    inputWrites (selectTsb (some sugMismatch) [] true (fun _ => true)
        (.ok .undefv)).1 = [JsVal.str "B, 2 Y"] := by
  refine ⟨?_, ?_, ?_⟩
  · exact (select_input_write_rules sugMismatch [] (fun _ => true)
      (fun _ => .formControl) .undefv).1
  · exact (select_input_write_rules sugMismatch [] (fun _ => true)
      (fun _ => .formControl) .undefv).2.1 rfl rfl
  · exact (select_input_write_rules sugMismatch [] (fun _ => true)
      (fun _ => .formControl) .undefv).2.2 rfl rfl

/-- The keyboard keys _handleKeydown distinguishes. -/
inductive Key where
  | arrowDown
  | arrowUp
  | enter
  | escape
  | other

/-- State of the suggestion list controller: visibility, number of
rendered li items, and the highlighted index. -/
structure ListState where
  visible : Bool
  itemCount : Nat
  highlightedIndex : Int
deriving DecidableEq

/-- The handler _handleKeydown (netsi-address.ts lines 312-342; the TsB and Js
twins compute the same index arithmetic): ignore keys while the list is
hidden or empty; ArrowDown takes (index + 1) remainder count, ArrowUp
takes (index - 1 + count) remainder count, both with the JavaScript
truncated remainder; Escape hides the list; Enter clicks the highlighted
item without changing the index. -/
def handleKeydown (st : ListState) (k : Key) : ListState :=
  if st.visible = false then st
  else if st.itemCount = 0 then st
  else
    match k with
    | .arrowDown =>
        { st with highlightedIndex :=
            (Int.tmod (st.highlightedIndex + 1) (st.itemCount : Int)) }
    | .arrowUp =>
        { st with highlightedIndex :=
            (Int.tmod (st.highlightedIndex - 1 + (st.itemCount : Int))
              (st.itemCount : Int)) }
    | .enter => st
    | .escape => { st with visible := false }
    | .other => st

/-- The function _renderSuggestions (netsi-address.ts lines 259-288 and the twins):
clear the rendered items, reset the highlighted index to -1, then hide
the list on zero suggestions or render and show the new ones. -/
def renderSuggestions (suggestions : List Suggestion) : ListState :=
  if suggestions.length = 0 then
    { visible := false, itemCount := 0, highlightedIndex := -1 }
  else
    { visible := true, itemCount := suggestions.length, highlightedIndex := -1 }

/-- C8: every keydown keeps the highlighted index inside the range from
-1 to count - 1 and never changes the item count; every re-render resets
the index to -1; and with three suggestions ArrowDown wraps index 2 to 0
while ArrowUp wraps index 0 to 2. -/
theorem highlight_index_invariant_and_wrap
    (st : ListState) (k : Key) (suggestions : List Suggestion) :
    (-1 ≤ st.highlightedIndex → st.highlightedIndex < (st.itemCount : Int) →
      -1 ≤ (handleKeydown st k).highlightedIndex ∧
      (handleKeydown st k).highlightedIndex < ((handleKeydown st k).itemCount : Int) ∧
      (handleKeydown st k).itemCount = st.itemCount) ∧
    (renderSuggestions suggestions).highlightedIndex = -1 ∧
    handleKeydown ⟨true, 3, 2⟩ .arrowDown = ⟨true, 3, 0⟩ ∧
    handleKeydown ⟨true, 3, 0⟩ .arrowUp = ⟨true, 3, 2⟩ := by
  refine ⟨?_, ?_, by decide, by decide⟩
  · intro h1 h2
    cases hvv : st.visible with
    | false =>
        simp only [handleKeydown, hvv, if_true, ite_true]
        exact ⟨h1, h2, by trivial⟩
    | true =>
        by_cases hz : st.itemCount = 0
        · have hred : handleKeydown st k = st := by
            simp [handleKeydown, hvv, hz]
          rw [hred]
          exact ⟨h1, h2, by trivial⟩
        · have hpos : (0 : Int) < (st.itemCount : Int) := by omega
          cases k with
          | arrowDown =>
              have hnn : 0 ≤ Int.tmod (st.highlightedIndex + 1) (st.itemCount : Int) :=
                Int.tmod_nonneg _ (by omega)
              have hlt : Int.tmod (st.highlightedIndex + 1) (st.itemCount : Int) <
                  (st.itemCount : Int) := Int.tmod_lt_of_pos _ hpos
              have hred : handleKeydown st .arrowDown =
                  { st with highlightedIndex :=
                      (Int.tmod (st.highlightedIndex + 1) (st.itemCount : Int)) } := by
                simp [handleKeydown, hvv, hz]
              rw [hred]
              refine ⟨?_, ?_, ?_⟩
              · show -1 ≤ Int.tmod (st.highlightedIndex + 1) (st.itemCount : Int)
                omega
              · show Int.tmod (st.highlightedIndex + 1) (st.itemCount : Int) <
                  (st.itemCount : Int)
                exact hlt
              · trivial
          | arrowUp =>
              have hred : handleKeydown st .arrowUp =
                  { st with highlightedIndex :=
                      (Int.tmod (st.highlightedIndex - 1 + (st.itemCount : Int))
                        (st.itemCount : Int)) } := by
                simp [handleKeydown, hvv, hz]
              rw [hred]
              by_cases hone : st.itemCount = 1
              · rw [hone]
                simp [Int.tmod_one]
              · have hnn : 0 ≤ Int.tmod (st.highlightedIndex - 1 + (st.itemCount : Int))
                    (st.itemCount : Int) := Int.tmod_nonneg _ (by omega)
                have hlt : Int.tmod (st.highlightedIndex - 1 + (st.itemCount : Int))
                    (st.itemCount : Int) < (st.itemCount : Int) :=
                  Int.tmod_lt_of_pos _ hpos
                refine ⟨?_, ?_, ?_⟩
                · show -1 ≤ Int.tmod (st.highlightedIndex - 1 + (st.itemCount : Int))
                    (st.itemCount : Int)
                  omega
                · show Int.tmod (st.highlightedIndex - 1 + (st.itemCount : Int))
                    (st.itemCount : Int) < (st.itemCount : Int)
                  exact hlt
                · trivial
          | enter =>
              have hred : handleKeydown st .enter = st := by
                simp [handleKeydown, hvv, hz]
              rw [hred]
              exact ⟨h1, h2, by trivial⟩
          | escape =>
              have hred : handleKeydown st .escape = { st with visible := false } := by
                simp [handleKeydown, hvv, hz]
              rw [hred]
              exact ⟨h1, h2, by trivial⟩
          | other =>
              have hred : handleKeydown st .other = st := by
                simp [handleKeydown, hvv, hz]
              rw [hred]
              exact ⟨h1, h2, by trivial⟩
  · by_cases h : suggestions.length = 0 <;> simp [renderSuggestions, h]

/-- C8 witness: the invariant applied at a concrete state. -/
theorem highlight_index_witness :
    -1 ≤ (handleKeydown ⟨true, 3, 2⟩ .arrowDown).highlightedIndex ∧
    (handleKeydown ⟨true, 3, 2⟩ .arrowDown).highlightedIndex <
      ((handleKeydown ⟨true, 3, 2⟩ .arrowDown).itemCount : Int) ∧
    (handleKeydown ⟨true, 3, 2⟩ .arrowDown).itemCount = 3 := by
  exact (highlight_index_invariant_and_wrap ⟨true, 3, 2⟩ .arrowDown []).1
    (by decide) (by decide)

/-- Generic key lookup in an association list (first binding wins). -/
def assocFind {α : Type} : List (String × α) → String → Option α
  | [], _ => none
  | (k, v) :: rest, key => if k = key then some v else assocFind rest key

/-- JavaScript object spread of b over a: the keys of a in their order
with values overridden by b where present, followed by the keys of b not
in a, in their order. -/
def spreadMerge {α : Type} (a b : List (String × α)) : List (String × α) :=
  a.map (fun p => match assocFind b p.1 with
    | some v => (p.1, v)
    | none => p) ++
  b.filter (fun p => (assocFind a p.1).isNone)

/-- The built-in default ui selectors of _defaults (netsi-address.ts
lines 132-147; the TsB and Js variants list the same pairs). -/
def defaultsUi : List (String × UiMapping) :=
  [("address", .sel "#address"),
   ("etage", .sel "#etage"),
   ("dør", .sel "#doer"),
   ("adgangsadresse.vejstykke.navn", .sel "#vejnavn"),
   ("adgangsadresse.husnr", .sel "#husnr"),
   ("adgangsadresse.postnummer.nr", .sel "#postnr"),
   ("adgangsadresse.postnummer.navn", .sel "#postnrnavn"),
   ("adgangsadresse.kommune.kode", .sel "#kommunekode"),
   ("adgangsadresse.kommune.navn", .sel "#kommune")]

/-- Partial configuration as supplied by the host application: an
optional partial ui map, an optional useFuzzyFallback value, and the
remaining arbitrary keys. -/
structure NetsiConfig where
  ui : Option (List (String × UiMapping))
  useFuzzyFallback : Option JsVal
  extra : List (String × JsVal)

/-- The config setter of the TsA variant (netsi-address.ts lines
158-165): spread the defaults, then the new config (extra keys and an
explicit useFuzzyFallback win), then rebuild ui as defaults.ui spread
with newConfig.ui (an absent newConfig.ui spreads nothing). -/
def setConfig (newConfig : NetsiConfig) : MergedConfig :=
  { ui := spreadMerge defaultsUi (newConfig.ui.getD []),
    useFuzzyFallback := newConfig.useFuzzyFallback.getD (.bool false),
    extra := newConfig.extra }

theorem assocFind_append {α : Type} (l1 l2 : List (String × α)) (k : String) :
    assocFind (l1 ++ l2) k =
      match assocFind l1 k with
      | some v => some v
      | none => assocFind l2 k := by
  induction l1 with
  | nil => rfl
  | cons p rest ih =>
      obtain ⟨k1, v1⟩ := p
      by_cases h : k1 = k
      · simp [assocFind, h]
      · simp [assocFind, h, ih]

theorem assocFind_filter_none {α : Type} (b : List (String × α))
    (p : String × α → Bool) (k : String) (h : assocFind b k = none) :
    assocFind (b.filter p) k = none := by
  induction b with
  | nil => rfl
  | cons q rest ih =>
      obtain ⟨k1, v1⟩ := q
      by_cases hk : k1 = k
      · simp [assocFind, hk] at h
      · simp only [assocFind, hk, if_false, ite_false] at h
        by_cases hp : p (k1, v1) = true
        · simp [List.filter_cons, hp, assocFind, hk, ih h]
        · simp [List.filter_cons, hp, ih h]

theorem assocFind_map_spread {α : Type} (a b : List (String × α)) (k : String)
    (h : assocFind b k = none) :
    assocFind (a.map (fun p => match assocFind b p.1 with
      | some v => (p.1, v)
      | none => p)) k = assocFind a k := by
  induction a with
  | nil => rfl
  | cons p rest ih =>
      obtain ⟨k1, v1⟩ := p
      simp only [List.map_cons]
      by_cases hk : k1 = k
      · simp [hk, h, assocFind]
      · cases hb : assocFind b k1 with
        | none => simp [hb, assocFind, hk, ih]
        | some w => simp [hb, assocFind, hk, ih]

/-- C9: for every partial configuration, the merged configuration keeps
the built-in default selector for each field path not explicitly
overridden, carries every extra key verbatim, and leaves the fuzzy
fallback off unless a value was supplied (in which case that value is
kept verbatim). -/
theorem config_merge_defaults_extras_fuzzy (nc : NetsiConfig) (key : String) :
    (assocFind (nc.ui.getD []) key = none →
      assocFind (setConfig nc).ui key = assocFind defaultsUi key) ∧
    (setConfig nc).extra = nc.extra ∧
    (nc.useFuzzyFallback = none →
      (setConfig nc).useFuzzyFallback = .bool false) ∧
    (∀ v, nc.useFuzzyFallback = some v → (setConfig nc).useFuzzyFallback = v) := by
  refine ⟨?_, rfl, ?_, ?_⟩
  · intro h
    simp only [setConfig, spreadMerge]
    rw [assocFind_append]
    rw [assocFind_map_spread _ _ _ h]
    rw [assocFind_filter_none _ _ _ h]
    cases hd : assocFind defaultsUi key <;> simp
  · intro h
    simp [setConfig, h]
  · intro v h
    simp [setConfig, h]

/-- Example partial configuration: one overridden path, one extra key,
no fuzzy flag. -/
def ncEx : NetsiConfig :=
  ⟨some [("adgangsadresse.husnr", .sel "#h")], none, [("per_side", .num 7)]⟩

/-- C9 witness: the merge behaviour at a concrete partial
configuration. -/
theorem config_merge_witness :
    assocFind (setConfig ncEx).ui "etage" = assocFind defaultsUi "etage" ∧
    (setConfig ncEx).extra = [("per_side", .num 7)] ∧
    (setConfig ncEx).useFuzzyFallback = .bool false := by
  refine ⟨?_, ?_, ?_⟩
  · exact (config_merge_defaults_extras_fuzzy ncEx "etage").1 (by
      show assocFind [("adgangsadresse.husnr", UiMapping.sel "#h")] "etage" = none
      simp [assocFind])
  · exact (config_merge_defaults_extras_fuzzy ncEx "etage").2.1
  · exact (config_merge_defaults_extras_fuzzy ncEx "etage").2.2.1 rfl
